import Mathlib

/-!
# internal/bindings/server.go

A shallow embedding of the Go/cgo binding layer of `internal/bindings/server.go`
and the properties of it that the specification relies on.

Conventions of the embedding

* Package-level variables of the Go file (`connectRegistry`, `connectIndex`,
  `logRegistry`, `logIndex`), the descriptor table of the process and the
  sequence of calls that leave the file (system calls, native engine entry
  points, interface methods, registered closures) form one explicit `State`
  that every operation passes along.
* What the outside world answers (does `dup` fail, what does the native engine
  return, does `malloc` return NULL) is an argument of the operation.
* C `int` values are `Int`, C `unsigned` values are `Nat` reduced `% 2 ^ 32`,
  `uintptr_t` values are `Nat` reduced `% 2 ^ 64`.
* The constants `DQLITE_STOPPED`, `DQLITE_CANTBOOTSTRAP` (dqlite.h) and
  `RAFT_NOCONNECTION` (raft.h) are not defined in the Go file; the operations
  that use them take them as arguments.
* A native array of `dqlite_server` is `none` for the NULL pointer and
  otherwise the list of its entries; a load or store through NULL or outside
  the array ends the call with `Outcome.fault`. A C string is the list of its
  bytes, terminator included; its allocation by `C.CString` and the deferred
  `C.free` are not tracked.
* `net.Conn` is an interface: a connection is given by what its `File` method
  yields, and `Close` releases the descriptor the connection exposes.
-/

namespace Bindings

/-- One byte of a Go string or of a C character array. -/
abbrev Byte := Fin 256

/-- Values of the Go `error` interface that cross this file. `Errorf` is a value
built on the spot by `fmt.Errorf`; `foreign` is an error made outside this file
(by `File()` or by a dial closure). -/
inductive GoError where
  | ErrServerStopped
  | ErrServerCantBootstrap
  | Errorf (msg : String)
  | foreign (code : Nat)
  deriving DecidableEq, Repr

/-- How a call ends: it returns a value, or the process crashes in it (a Go
panic, or an invalid memory access in the C helpers). -/
inductive Outcome (α : Type) where
  | ret (a : α)
  | fault
  deriving DecidableEq, Repr

/-- What `conn.(fileConn).File()` does for a given connection: the assertion
fails (nil connection, or a type without `File`), `File` returns an error, or
it returns a file whose `Fd()`, converted to C `int`, is `fd`. -/
inductive FileResult where
  | noFileConn
  | err (e : GoError)
  | ok (fd : Int)
  deriving DecidableEq, Repr

/-- A `net.Conn` value as far as this file looks at it: the identity of the
connection object, and what its `File` method yields. -/
structure Conn where
  id : Nat
  file : FileResult
  deriving DecidableEq, Repr

/-- The Go type `ServerInfo`. -/
structure ServerInfo where
  ID : Nat
  Address : List Byte
  deriving DecidableEq, Repr

/-- The C struct `dqlite_server`; `address` is the character array the pointer
refers to, terminator included. -/
structure dqlite_server where
  id : Nat
  address : List Byte
  deriving DecidableEq, Repr

/-- Calls that leave the Go file, in the order they happen. -/
inductive Event where
  | File (conn : Nat)
  | dup (oldfd : Int) (res : Int)
  | fcntl (fd : Int) (res : Int)
  | connClose (conn : Nat)
  | close (fd : Int)
  | dqlite_handle (fd : Int) (rc : Int)
  | dial (closure : Nat) (timeout : Nat) (address : List Byte)
  | malloc (n : Int) (isNull : Bool)
  | setServer (i : Nat) (id : Nat) (address : List Byte)
  | dqlite_bootstrap (n : Nat) (servers : Option (List dqlite_server)) (rc : Int)
  | dqlite_cluster (rv : Int)
  | sqlite3_free
  | configConnect (handle : Nat)
  | configLogger (handle : Nat)
  | log (closure : Nat) (level : Int) (message : List Byte)
  deriving DecidableEq, Repr

/-- The descriptor table of the process: open descriptors with their
FD_CLOEXEC flag. -/
abbrev FdTable := List (Int × Bool)

/-- A registered `DialFunc` closure: `run timeout address` is what the closure
does when called with a context of the given timeout (nanoseconds) and an
address; it may open descriptors. -/
structure DialFunc where
  id : Nat
  run : Nat → List Byte → FdTable → (Conn × Option GoError) × FdTable

/-- A registered `LogFunc` closure; calling it is recorded as `Event.log`. -/
structure LogFunc where
  id : Nat
  deriving DecidableEq, Repr

/-- Package-level variables, descriptor table and call history. -/
structure State where
  connectRegistry : Nat → Option DialFunc
  connectIndex : Nat
  logRegistry : Nat → Option LogFunc
  logIndex : Nat
  fds : FdTable
  trace : List Event

/-- The state when the package has been initialised: empty registries, both
indices at 100. -/
def State.init (fds : FdTable) : State :=
  { connectRegistry := fun _ => none
    connectIndex := 100
    logRegistry := fun _ => none
    logIndex := 100
    fds := fds
    trace := [] }

/-- Record a call. -/
def State.emit (st : State) (e : Event) : State :=
  { st with trace := st.trace ++ [e] }

/-- The descriptors that are open. -/
def State.openFds (st : State) : List Int := st.fds.map Prod.fst

/-- The FD_CLOEXEC flag of a descriptor, `none` when it is not open. -/
def State.cloexec (st : State) (fd : Int) : Option Bool :=
  (st.fds.find? (fun e => e.1 == fd)).map Prod.snd

/-- What the operating system answers to the two system calls of
`dupCloexec`. -/
structure Sys where
  dupFails : Bool
  fcntlFails : Bool
  deriving DecidableEq, Repr

/-- The lowest descriptor number not in `used`, searching upwards from `c` for
at most `k` steps. -/
def lowestFree (used : List Int) : Nat → Nat → Nat
  | 0, c => c
  | k + 1, c => if (c : Int) ∈ used then lowestFree used k (c + 1) else c

/-- The system call `dup(oldfd)`: fails with -1, or opens the lowest free
descriptor, with FD_CLOEXEC clear. -/
def dup (sys : Sys) (st : State) (oldfd : Int) : State × Int :=
  if sys.dupFails = true ∨ oldfd ∉ st.openFds then
    (st.emit (.dup oldfd (-1)), -1)
  else
    let newfd : Int := (lowestFree st.openFds st.fds.length 0 : Nat)
    ({ st with fds := st.fds ++ [(newfd, false)]
               trace := st.trace ++ [.dup oldfd newfd] }, newfd)

/-- The system call `fcntl(fd, F_SETFD, FD_CLOEXEC)`. -/
def fcntlSetfdCloexec (sys : Sys) (st : State) (fd : Int) : State × Int :=
  if sys.fcntlFails = true ∨ fd ∉ st.openFds then
    (st.emit (.fcntl fd (-1)), -1)
  else
    ({ st with fds := st.fds.map (fun e => if e.1 = fd then (e.1, true) else e)
               trace := st.trace ++ [.fcntl fd 0] }, 0)

/-- The system call `close(fd)`. -/
def close (st : State) (fd : Int) : State :=
  { st with fds := st.fds.filter (fun e => e.1 ≠ fd)
            trace := st.trace ++ [.close fd] }

/-- The method `conn.Close()`: the connection releases the descriptor it
exposes through `File`. -/
def Conn.Close (st : State) (conn : Conn) : State :=
  match conn.file with
  | .ok fd =>
    { st with fds := st.fds.filter (fun e => e.1 ≠ fd)
              trace := st.trace ++ [.connClose conn.id] }
  | _ => st.emit (.connClose conn.id)

/-- The C helper `dupCloexec` (lines 15-28). -/
def dupCloexec (sys : Sys) (st : State) (oldfd : Int) : State × Int :=
  let r := dup sys st oldfd
  let newfd := r.2
  if newfd < 0 then
    (r.1, -1)
  else
    let r2 := fcntlSetfdCloexec sys r.1 newfd
    if r2.2 < 0 then
      (r2.1, -1)
    else
      (r2.1, newfd)

/-- The Go function `connToSocket` (lines 266-284). -/
def connToSocket (sys : Sys) (st : State) (conn : Conn) :
    State × Outcome (Int × Option GoError) :=
  match conn.file with
  | .noFileConn => (st, .fault)
  | .err e => (st.emit (.File conn.id), .ret (-1, some e))
  | .ok fd1 =>
    let r := dupCloexec sys (st.emit (.File conn.id)) fd1
    let fd2 := r.2
    if fd2 < 0 then
      (r.1, .ret (-1, some (.Errorf "failed to dup socket fd")))
    else
      (conn.Close r.1, .ret (fd2, none))

/-- The Go method `Server.Handle` (lines 287-305); `rc` is what the native
`dqlite_handle` returns. -/
def Handle (DQLITE_STOPPED : Int) (sys : Sys) (rc : Int) (st : State) (conn : Conn) :
    State × Outcome (Option GoError) :=
  match connToSocket sys st conn with
  | (st1, .fault) => (st1, .fault)
  | (st1, .ret (_, some err)) => (st1, .ret (some err))
  | (st1, .ret (fd, none)) =>
    let st2 := st1.emit (.dqlite_handle fd rc)
    if rc ≠ 0 then
      let st3 := close st2 fd
      if rc = DQLITE_STOPPED then
        (st3, .ret (some .ErrServerStopped))
      else
        (st3, .ret (some (.Errorf ("hadle failed with " ++ toString rc))))
    else
      (st2, .ret none)

/-- The Go conversion `C.int(x)` (32-bit two's complement). -/
def cint (x : Int) : Int := (x + 2147483648) % 4294967296 - 2147483648

/-- The Go conversion `C.unsigned(x)` (32 bits). -/
def cunsigned (x : Nat) : Nat := x % 4294967296

/-- Arithmetic of `C.uintptr_t` (64 bits). -/
def uintptr (x : Nat) : Nat := x % 18446744073709551616

/-- The cgo helper `C.CString`: a fresh character array holding the bytes of
the Go string followed by the terminator. -/
def CString (s : List Byte) : List Byte := s ++ [0]

/-- The cgo helper `C.GoString`: the bytes before the first terminator. -/
def GoString (p : List Byte) : List Byte := p.takeWhile (fun b => b ≠ 0)

/-- The C helper `allocServers` (lines 31-37). `serversIsNull` says whether the
out-parameter `servers` itself is NULL; `mallocFails` says whether `malloc`
returns NULL. A successful allocation has room for `n` entries. The second
component of the result is the pointer stored in `*servers`. -/
def allocServers (mallocFails : Bool) (st : State) (n : Int) (serversIsNull : Bool) :
    State × Outcome (Int × Option (List dqlite_server)) :=
  if serversIsNull then
    (st, .fault)
  else
    let p : Option (List dqlite_server) :=
      if mallocFails then none else some (List.replicate n.toNat { id := 0, address := [] })
    let st1 := st.emit (.malloc n mallocFails)
    if serversIsNull then
      (st1, .ret (-1, p))
    else
      (st1, .ret (0, p))

/-- The C helper `setServer` (lines 40-43): a store into `servers[i]`. -/
def setServer (servers : Option (List dqlite_server)) (i : Int) (id : Nat)
    (address : List Byte) : Outcome (Option (List dqlite_server)) :=
  match servers with
  | none => .fault
  | some a =>
    if 0 ≤ i ∧ i.toNat < a.length then
      .ret (some (a.set i.toNat { id := id, address := address }))
    else
      .fault

/-- The C helper `getServer` (lines 46-49): a load from `servers[i]` into an
`unsigned` and a character pointer. -/
def getServer (servers : Option (List dqlite_server)) (i : Int) :
    Outcome (Nat × List Byte) :=
  match servers with
  | none => .fault
  | some a =>
    if 0 ≤ i then
      match a[i.toNat]? with
      | some e => .ret (cunsigned e.id, e.address)
      | none => .fault
    else
      .fault

/-- The loop of `Server.Bootstrap` (lines 148-153), from index `i` on. -/
def fillServers : Option (List dqlite_server) → Nat → List ServerInfo → State →
    State × Outcome (Option (List dqlite_server))
  | cservers, _, [], st => (st, .ret cservers)
  | cservers, i, s :: rest, st =>
    let cid := cunsigned s.ID
    let caddress := CString s.Address
    let st1 := st.emit (.setServer i cid caddress)
    match setServer cservers (cint i) cid caddress with
    | .fault => (st1, .fault)
    | .ret cservers1 => fillServers cservers1 (i + 1) rest st1

/-- The Go method `Server.Bootstrap` (lines 140-162); `rc` is what the native
`dqlite_bootstrap` returns. -/
def Bootstrap (DQLITE_CANTBOOTSTRAP : Int) (mallocFails : Bool) (rc : Int) (st : State)
    (servers : List ServerInfo) : State × Outcome (Option GoError) :=
  let n := servers.length
  match allocServers mallocFails st (cint n) false with
  | (st1, .fault) => (st1, .fault)
  | (st1, .ret (rv, cservers)) =>
    if rv ≠ 0 then
      (st1, .ret (some (.Errorf "out of memory")))
    else
      match fillServers cservers 0 servers st1 with
      | (st2, .fault) => (st2, .fault)
      | (st2, .ret cservers2) =>
        let st3 := st2.emit (.dqlite_bootstrap (cunsigned n) cservers2 rc)
        if rc ≠ 0 then
          if rc = DQLITE_CANTBOOTSTRAP then
            (st3, .ret (some .ErrServerCantBootstrap))
          else
            (st3, .ret (some (.Errorf ("bootstrap failed with " ++ toString rc))))
        else
          (st3, .ret none)

/-- The loop of `Server.Cluster` (lines 255-261): `k` entries from index `i`. -/
def readServers (servers : Option (List dqlite_server)) : Nat → Nat → Outcome (List ServerInfo)
  | _, 0 => .ret []
  | i, k + 1 =>
    match getServer servers (cint i) with
    | .fault => .fault
    | .ret (id, address) =>
      match readServers servers (i + 1) k with
      | .fault => .fault
      | .ret infos => .ret ({ ID := id, Address := GoString address } :: infos)

/-- The Go method `Server.Cluster` (lines 245-263); the native `dqlite_cluster`
returns `rv` and stores `servers` and the `unsigned` count `n`. -/
def Cluster (rv : Int) (servers : Option (List dqlite_server)) (n : Nat) (st : State) :
    State × Outcome (List ServerInfo × Option GoError) :=
  let st1 := st.emit (.dqlite_cluster rv)
  if rv ≠ 0 then
    (st1, .ret ([], some (.Errorf ("cluster failed with " ++ toString rv))))
  else
    match readServers servers 0 (cunsigned n) with
    | .fault => (st1, .fault)
    | .ret infos => (st1.emit .sqlite3_free, .ret (infos, none))

/-- The Go method `Server.SetDialFunc` (lines 182-188). -/
def SetDialFunc (st : State) (dial : DialFunc) : State :=
  let connectIndex := uintptr (st.connectIndex + 1)
  { st with connectIndex := connectIndex
            connectRegistry := Function.update st.connectRegistry connectIndex (some dial)
            trace := st.trace ++ [.configConnect connectIndex] }

/-- The Go method `Server.SetLogFunc` (lines 191-197). -/
def SetLogFunc (st : State) (log : LogFunc) : State :=
  let logIndex := uintptr (st.logIndex + 1)
  { st with logIndex := logIndex
            logRegistry := Function.update st.logRegistry logIndex (some log)
            trace := st.trace ++ [.configLogger logIndex] }

/-- One call of `SetDialFunc` or `SetLogFunc`. -/
inductive Registration where
  | dial (f : DialFunc)
  | log (f : LogFunc)

/-- Perform one registration. -/
def Registration.apply (st : State) : Registration → State
  | .dial f => SetDialFunc st f
  | .log f => SetLogFunc st f

/-- Perform a sequence of registrations, first to last. -/
def runRegistrations (st : State) (rs : List Registration) : State :=
  rs.foldl Registration.apply st

/-- The dial closures of a sequence of registrations, in order. -/
def dialsOf : List Registration → List DialFunc
  | [] => []
  | .dial f :: rs => f :: dialsOf rs
  | .log _ :: rs => dialsOf rs

/-- The log closures of a sequence of registrations, in order. -/
def logsOf : List Registration → List LogFunc
  | [] => []
  | .dial _ :: rs => logsOf rs
  | .log f :: rs => f :: logsOf rs

/-- The handles given to the native engine by `configConnect`, in order. -/
def dialHandles : List Event → List Nat
  | [] => []
  | .configConnect h :: es => h :: dialHandles es
  | _ :: es => dialHandles es

/-- The handles given to the native engine by `configLogger`, in order. -/
def logHandles : List Event → List Nat
  | [] => []
  | .configLogger h :: es => h :: logHandles es
  | _ :: es => logHandles es

/-- The Go constant `time.Second`, in nanoseconds. -/
def Second : Nat := 1000000000

/-- Is the event a call of a dial closure? -/
def Event.isDial : Event → Bool
  | .dial _ _ _ => true
  | _ => false

/-- Is the event a call of the system call `close`? -/
def Event.isClose : Event → Bool
  | .close _ => true
  | _ => false

/-- Is the event a call of the native `dqlite_handle`? -/
def Event.isHandle : Event → Bool
  | .dqlite_handle _ _ => true
  | _ => false

/-- Is the event a call of the native `dqlite_bootstrap`? -/
def Event.isBootstrap : Event → Bool
  | .dqlite_bootstrap _ _ _ => true
  | _ => false

/-- Is the event a call of a log closure? -/
def Event.isLog : Event → Bool
  | .log _ _ _ => true
  | _ => false

/-- Is the event a call of `conn.Close()`? -/
def Event.isConnClose : Event → Bool
  | .connClose _ => true
  | _ => false

/-- The exported Go function `connectWithDial` (lines 324-341). The result is
the returned C `int` and the value stored in `*fd`, if any. -/
def connectWithDial (RAFT_NOCONNECTION : Int) (sys : Sys) (st : State) (handle : Nat)
    (server : dqlite_server) : State × Outcome (Int × Option Int) :=
  match st.connectRegistry handle with
  | none => (st, .fault)
  | some dial =>
    let timeout := 5 * Second
    let info : ServerInfo := { ID := server.id, Address := GoString server.address }
    let r := dial.run timeout info.Address st.fds
    let st1 : State :=
      { st with fds := r.2
                trace := st.trace ++ [.dial dial.id timeout info.Address] }
    match r.1.2 with
    | some _ => (st1, .ret (RAFT_NOCONNECTION, none))
    | none =>
      match connToSocket sys st1 r.1.1 with
      | (st2, .fault) => (st2, .fault)
      | (st2, .ret (_, some _)) => (st2, .ret (RAFT_NOCONNECTION, none))
      | (st2, .ret (socket, none)) => (st2, .ret (0, some socket))

/-- The exported Go function `logWithLogger` (lines 344-348). -/
def logWithLogger (st : State) (handle : Nat) (level : Int) (message : List Byte) :
    State × Outcome Unit :=
  match st.logRegistry handle with
  | none => (st, .fault)
  | some log => (st.emit (.log log.id level (GoString message)), .ret ())

/-- The C constant `EMIT_BUF_LEN` (line 12). -/
def EMIT_BUF_LEN : Nat := 1024

/-- The C library call `vsnprintf(buf, size, fmt, args)`, given the text that
the format and arguments produce: at most `size - 1` bytes and a terminator. -/
def vsnprintf (size : Nat) (formatted : List Byte) : List Byte :=
  formatted.take (size - 1) ++ [0]

/-- The C function `logTrampoline` (lines 72-80). The call
`logWithLogger(handle, level, buf)` is commented out in the source (line 79),
so the buffer is filled and nothing else happens. -/
def logTrampoline (st : State) (data : Nat) (_level : Int) (formatted : List Byte) : State :=
  let _handle := uintptr data
  let _buf := vsnprintf EMIT_BUF_LEN formatted
  st

/-! ## Concrete inputs used to exercise the theorems -/

/-- A process with descriptors 0 to 3 open, package freshly initialised. -/
def sampleState : State := State.init [(0, false), (1, false), (2, false), (3, false)]

/-- A connection whose `File` exposes descriptor 3. -/
def sampleConn : Conn := { id := 7, file := .ok 3 }

/-- A connection whose `File` returns an error. -/
def brokenConn : Conn := { id := 8, file := .err (.foreign 1) }

/-- No system call fails. -/
def sysOk : Sys := { dupFails := false, fcntlFails := false }

/-- `dup` works and `fcntl` fails. -/
def sysFcntlFails : Sys := { dupFails := false, fcntlFails := true }

/-- `dup` fails. -/
def sysDupFails : Sys := { dupFails := true, fcntlFails := false }

/-- A dial closure that opens descriptor 4 and returns a connection exposing
it. -/
def dialOk : DialFunc :=
  { id := 1, run := fun _ _ fds => (({ id := 9, file := .ok 4 }, none), fds ++ [(4, true)]) }

/-- A dial closure that opens descriptor 4 and returns a connection whose
`File` returns an error. -/
def dialBrokenConn : DialFunc :=
  { id := 2
    run := fun _ _ fds => (({ id := 9, file := .err (.foreign 1) }, none), fds ++ [(4, true)]) }

/-- A dial closure that fails. -/
def dialErr : DialFunc :=
  { id := 3, run := fun _ _ fds => (({ id := 0, file := .noFileConn }, some (.foreign 2)), fds) }

/-- The peer `{2, "b"}` as a native `dqlite_server`. -/
def samplePeer : dqlite_server := { id := 2, address := CString [98] }

/-- The sample process after registering the three dial closures: handles 101,
102 and 103. -/
def dialState : State :=
  SetDialFunc (SetDialFunc (SetDialFunc sampleState dialOk) dialBrokenConn) dialErr

/-- The sample process after registering the log closure 5: handle 101. -/
def logState : State := SetLogFunc sampleState { id := 5 }

/-- What holds of the state reached from the initial one by the registrations
`rs`: the indices count the registrations, the handles issued are 101, 102, ...
in order, the registries hold the closures under these handles and nothing
else. -/
def RegInv (rs : List Registration) (st : State) : Prop :=
  st.connectIndex = 100 + (dialsOf rs).length ∧
  st.logIndex = 100 + (logsOf rs).length ∧
  dialHandles st.trace = List.range' 101 (dialsOf rs).length ∧
  logHandles st.trace = List.range' 101 (logsOf rs).length ∧
  (∀ i f, (dialsOf rs)[i]? = some f → st.connectRegistry (101 + i) = some f) ∧
  (∀ i f, (logsOf rs)[i]? = some f → st.logRegistry (101 + i) = some f) ∧
  (∀ h, (h < 101 ∨ 100 + (dialsOf rs).length < h) → st.connectRegistry h = none) ∧
  (∀ h, (h < 101 ∨ 100 + (logsOf rs).length < h) → st.logRegistry h = none)

/-- Three registrations: a dial closure, a log closure, another dial closure. -/
def sampleRegs : List Registration := [.dial dialOk, .log { id := 5 }, .dial dialErr]

/-- The entry that the loop of `Server.Bootstrap` stores for a `ServerInfo`:
the ID converted to `unsigned`, the address as a C string. -/
def toNative (s : ServerInfo) : dqlite_server :=
  { id := cunsigned s.ID, address := CString s.Address }

/-- The `ServerInfo` that the loop of `Server.Cluster` builds from an entry:
the id read into an `unsigned`, the address converted to a Go string. -/
def fromNative (e : dqlite_server) : ServerInfo :=
  { ID := cunsigned e.id, Address := GoString e.address }

/-- The member list `{1, "a"}, {2, "b"}`. -/
def sampleMembers : List ServerInfo := [{ ID := 1, Address := [97] }, { ID := 2, Address := [98] }]

/-- A member whose ID needs more than 32 bits. -/
def wideMember : ServerInfo := { ID := 4294967297, Address := [97] }

/-! ## Auxiliary facts on the descriptor table -/

theorem lowestFree_spec (used : List Int) : ∀ k c : Nat,
    ((lowestFree used k c : Nat) : Int) ∉ used ∨
      (lowestFree used k c = c + k ∧ ∀ j : Nat, c ≤ j → j < c + k → ((j : Nat) : Int) ∈ used) := by
  intro k
  induction k with
  | zero =>
    intro c
    right
    refine ⟨by simp [lowestFree], ?_⟩
    intro j h1 h2
    omega
  | succ k ih =>
    intro c
    unfold lowestFree
    split
    · rename_i hc
      rcases ih (c + 1) with h | ⟨h1, h2⟩
      · left; exact h
      · right
        refine ⟨by omega, ?_⟩
        intro j hj1 hj2
        by_cases hjc : j = c
        · subst hjc; exact hc
        · exact h2 j (by omega) (by omega)
    · rename_i hc
      left; exact hc

theorem lowestFree_fresh (used : List Int) :
    ((lowestFree used used.length 0 : Nat) : Int) ∉ used := by
  rcases lowestFree_spec used used.length 0 with h | ⟨h1, h2⟩
  · exact h
  · intro hmem
    have hsub : (List.range (used.length + 1)).map (fun j : Nat => (j : Int)) ⊆ used := by
      intro x hx
      simp only [List.mem_map, List.mem_range] at hx
      obtain ⟨j, hj, rfl⟩ := hx
      by_cases hjl : j < used.length
      · exact h2 j (Nat.zero_le _) (by omega)
      · have : j = used.length := by omega
        subst this
        rw [h1] at hmem
        simpa using hmem
    have hnd : ((List.range (used.length + 1)).map (fun j : Nat => (j : Int))).Nodup := by
      apply List.Nodup.map
      · intro a b hab
        exact Int.ofNat.inj hab
      · exact List.nodup_range _
    have hlen := (List.subperm_of_subset hnd hsub).length_le
    simp at hlen

theorem find_after_handoff (fds : FdTable) (fd1 fd2 : Int)
    (hnew : fd2 ∉ fds.map Prod.fst) (hne : fd2 ≠ fd1) :
    (((fds ++ [(fd2, false)]).map (fun e => if e.1 = fd2 then (e.1, true) else e)).filter
      (fun e => e.1 ≠ fd1)).find? (fun e => e.1 == fd2) = some (fd2, true) := by
  induction fds with
  | nil => simp [hne]
  | cons e rest ih =>
    have he : e.1 ≠ fd2 := by
      intro h
      apply hnew
      simp [← h]
    have hrest : fd2 ∉ rest.map Prod.fst := by
      intro h
      apply hnew
      simp only [List.map_cons, List.mem_cons]
      exact Or.inr h
    have hb : (e.1 == fd2) = false := by simpa using he
    rw [List.cons_append, List.map_cons, if_neg he]
    by_cases h1 : e.1 = fd1
    · rw [List.filter_cons_of_neg (by simp [h1])]
      exact ih hrest
    · rw [List.filter_cons_of_pos (by simp [h1]), List.find?_cons, hb]
      exact ih hrest

theorem dup_ok (sys : Sys) (st : State) (oldfd : Int) (h : 0 ≤ (dup sys st oldfd).2) :
    oldfd ∈ st.openFds ∧ (dup sys st oldfd).2 ∉ st.openFds ∧
      (dup sys st oldfd).1.fds = st.fds ++ [((dup sys st oldfd).2, false)] ∧
      (dup sys st oldfd).1.trace = st.trace ++ [.dup oldfd (dup sys st oldfd).2] := by
  unfold dup at h ⊢
  split
  · rename_i hc
    simp [hc] at h
  · rename_i hc
    push_neg at hc
    refine ⟨hc.2, ?_, rfl, rfl⟩
    have := lowestFree_fresh st.openFds
    simpa [State.openFds] using this

theorem fcntl_ok (sys : Sys) (st : State) (fd : Int)
    (h : 0 ≤ (fcntlSetfdCloexec sys st fd).2) :
    (fcntlSetfdCloexec sys st fd).1.fds
        = st.fds.map (fun e => if e.1 = fd then (e.1, true) else e) ∧
      (fcntlSetfdCloexec sys st fd).1.trace = st.trace ++ [.fcntl fd 0] ∧
      (fcntlSetfdCloexec sys st fd).2 = 0 := by
  unfold fcntlSetfdCloexec at h ⊢
  split
  · rename_i hc
    simp [hc] at h
  · exact ⟨rfl, rfl, rfl⟩

/-! ## The hand-off `connToSocket` -/

theorem dupCloexec_ok (sys : Sys) (st : State) (fd1 : Int)
    (hdup : 0 ≤ (dup sys st fd1).2)
    (hfcntl : 0 ≤ (fcntlSetfdCloexec sys (dup sys st fd1).1 (dup sys st fd1).2).2) :
    dupCloexec sys st fd1
      = ((fcntlSetfdCloexec sys (dup sys st fd1).1 (dup sys st fd1).2).1, (dup sys st fd1).2) := by
  unfold dupCloexec
  simp only [not_lt.mpr hdup, not_lt.mpr hfcntl, if_false]

theorem connToSocket_ok_aux (sys : Sys) (st : State) (conn : Conn) (fd1 : Int)
    (hfile : conn.file = .ok fd1)
    (hdup : 0 ≤ (dup sys (st.emit (.File conn.id)) fd1).2)
    (hfcntl : 0 ≤ (fcntlSetfdCloexec sys (dup sys (st.emit (.File conn.id)) fd1).1
      (dup sys (st.emit (.File conn.id)) fd1).2).2) :
    (connToSocket sys st conn).2 = .ret ((dup sys (st.emit (.File conn.id)) fd1).2, none) ∧
      fd1 ∈ st.openFds ∧
      (dup sys (st.emit (.File conn.id)) fd1).2 ∉ st.openFds ∧
      (connToSocket sys st conn).1.fds
        = ((st.fds ++ [((dup sys (st.emit (.File conn.id)) fd1).2, false)]).map
            (fun e => if e.1 = (dup sys (st.emit (.File conn.id)) fd1).2
              then (e.1, true) else e)).filter (fun e => e.1 ≠ fd1) ∧
      (connToSocket sys st conn).1.trace
        = st.trace ++ [.File conn.id, .dup fd1 (dup sys (st.emit (.File conn.id)) fd1).2,
            .fcntl (dup sys (st.emit (.File conn.id)) fd1).2 0, .connClose conn.id] := by
  have hd := dup_ok sys (st.emit (.File conn.id)) fd1 hdup
  have hf := fcntl_ok sys _ _ hfcntl
  have hdc := dupCloexec_ok sys (st.emit (.File conn.id)) fd1 hdup hfcntl
  have hcs : connToSocket sys st conn
      = (conn.Close (fcntlSetfdCloexec sys (dup sys (st.emit (.File conn.id)) fd1).1
          (dup sys (st.emit (.File conn.id)) fd1).2).1,
        .ret ((dup sys (st.emit (.File conn.id)) fd1).2, none)) := by
    unfold connToSocket
    simp only [hfile, hdc, not_lt.mpr hdup, if_false]
  rw [hcs]
  refine ⟨rfl, hd.1, hd.2.1, ?_, ?_⟩
  · simp only [Conn.Close, hfile, hf.1, hd.2.2.1]
    rfl
  · simp only [Conn.Close, hfile, hf.2.1, hd.2.2.2]
    simp [State.emit]

theorem connToSocket_ret_inv (sys : Sys) (st : State) (conn : Conn) (fd : Int)
    (h : (connToSocket sys st conn).2 = .ret (fd, none)) :
    ∃ fd1, conn.file = .ok fd1 ∧
      0 ≤ (dup sys (st.emit (.File conn.id)) fd1).2 ∧
      0 ≤ (fcntlSetfdCloexec sys (dup sys (st.emit (.File conn.id)) fd1).1
        (dup sys (st.emit (.File conn.id)) fd1).2).2 ∧
      fd = (dup sys (st.emit (.File conn.id)) fd1).2 := by
  unfold connToSocket at h
  split at h
  · simp at h
  · simp at h
  · rename_i fd1 hfile
    refine ⟨fd1, hfile, ?_⟩
    by_cases hneg : (dupCloexec sys (st.emit (.File conn.id)) fd1).2 < 0
    · simp [hneg] at h
    · simp only [hneg, if_false] at h
      have hfd : (dupCloexec sys (st.emit (.File conn.id)) fd1).2 = fd := by
        simpa using h
      unfold dupCloexec at hfd hneg
      by_cases h1 : (dup sys (st.emit (.File conn.id)) fd1).2 < 0
      · simp [h1] at hneg
      · simp only [h1, if_false] at hfd hneg
        by_cases h2 : (fcntlSetfdCloexec sys (dup sys (st.emit (.File conn.id)) fd1).1
            (dup sys (st.emit (.File conn.id)) fd1).2).2 < 0
        · simp [h2] at hneg
        · simp only [h2, if_false] at hfd
          exact ⟨not_lt.mp h1, not_lt.mp h2, hfd.symm⟩

theorem connToSocket_ok_flags (sys : Sys) (st : State) (conn : Conn) (fd1 : Int)
    (hfile : conn.file = .ok fd1)
    (hdup : 0 ≤ (dup sys (st.emit (.File conn.id)) fd1).2)
    (hfcntl : 0 ≤ (fcntlSetfdCloexec sys (dup sys (st.emit (.File conn.id)) fd1).1
      (dup sys (st.emit (.File conn.id)) fd1).2).2) :
    (dup sys (st.emit (.File conn.id)) fd1).2 ≠ fd1 ∧
      (connToSocket sys st conn).1.cloexec (dup sys (st.emit (.File conn.id)) fd1).2
        = some true ∧
      (dup sys (st.emit (.File conn.id)) fd1).2 ∈ (connToSocket sys st conn).1.openFds := by
  obtain ⟨_, h2, h3, h4, _⟩ := connToSocket_ok_aux sys st conn fd1 hfile hdup hfcntl
  have hne : (dup sys (st.emit (.File conn.id)) fd1).2 ≠ fd1 := by
    intro h
    rw [h] at h3
    exact h3 h2
  have hfind := find_after_handoff st.fds fd1 _ h3 hne
  refine ⟨hne, ?_, ?_⟩
  · simp only [State.cloexec, h4, hfind]
    rfl
  · have hm := List.mem_of_find?_eq_some hfind
    rw [← h4] at hm
    simp only [State.openFds, List.mem_map]
    exact ⟨_, hm, rfl⟩

/-- C4: when `File()` yields `fd1` and both `dup` and `fcntl(F_SETFD, FD_CLOEXEC)`
succeed, `connToSocket` returns `(fd2, nil)` where `fd2` is the descriptor `dup`
created: it was not open before, differs from `fd1`, is not negative, is open
with close-on-exec set when `connToSocket` returns, and the calls made are, in
order, `File`, `dup`, `fcntl`, `conn.Close()`: the connection is closed exactly
once, after the duplication. -/
theorem connToSocket_success (sys : Sys) (st : State) (conn : Conn) (fd1 fd2 : Int)
    (hfile : conn.file = .ok fd1)
    (hdup : (dup sys (st.emit (.File conn.id)) fd1).2 = fd2)
    (hpos : 0 ≤ fd2)
    (hfcntl : 0 ≤ (fcntlSetfdCloexec sys (dup sys (st.emit (.File conn.id)) fd1).1 fd2).2) :
    (connToSocket sys st conn).2 = .ret (fd2, none) ∧
      fd2 ∉ st.openFds ∧ fd2 ≠ fd1 ∧ 0 ≤ fd2 ∧
      (connToSocket sys st conn).1.cloexec fd2 = some true ∧
      fd2 ∈ (connToSocket sys st conn).1.openFds ∧
      (connToSocket sys st conn).1.trace
        = st.trace ++ [.File conn.id, .dup fd1 fd2, .fcntl fd2 0, .connClose conn.id] ∧
      ((connToSocket sys st conn).1.trace.drop st.trace.length).countP Event.isConnClose = 1 := by
  subst hdup
  obtain ⟨h1, _, h3, _, h5⟩ := connToSocket_ok_aux sys st conn fd1 hfile hpos hfcntl
  obtain ⟨hne, hflag, hopen⟩ := connToSocket_ok_flags sys st conn fd1 hfile hpos hfcntl
  refine ⟨h1, h3, hne, hpos, hflag, hopen, h5, ?_⟩
  rw [h5]
  simp [Event.isConnClose]

theorem connToSocket_success_witness :
    (connToSocket sysOk sampleState sampleConn).2 = .ret (4, none) ∧
      (4 : Int) ∉ sampleState.openFds ∧ (4 : Int) ≠ 3 ∧ (0 : Int) ≤ 4 ∧
      (connToSocket sysOk sampleState sampleConn).1.cloexec 4 = some true ∧
      (4 : Int) ∈ (connToSocket sysOk sampleState sampleConn).1.openFds ∧
      (connToSocket sysOk sampleState sampleConn).1.trace
        = sampleState.trace ++ [.File sampleConn.id, .dup 3 4, .fcntl 4 0,
            .connClose sampleConn.id] ∧
      ((connToSocket sysOk sampleState sampleConn).1.trace.drop
        sampleState.trace.length).countP Event.isConnClose = 1 :=
  connToSocket_success sysOk sampleState sampleConn 3 4 rfl (by decide) (by decide) (by decide)

/-- C8 (the code at the failing input): `dup` creates descriptor 4, `fcntl`
fails, `connToSocket` returns -1 with an error, and descriptor 4 is still open:
no `close` was issued for it. -/
theorem connToSocket_fcntl_failure_leaves_dup_open :
    sampleState.openFds = [0, 1, 2, 3] ∧
      (connToSocket sysFcntlFails sampleState sampleConn).2
        = .ret (-1, some (.Errorf "failed to dup socket fd")) ∧
      (connToSocket sysFcntlFails sampleState sampleConn).1.openFds = [0, 1, 2, 3, 4] ∧
      (connToSocket sysFcntlFails sampleState sampleConn).1.cloexec 4 = some false ∧
      (connToSocket sysFcntlFails sampleState sampleConn).1.trace
        = [.File 7, .dup 3 4, .fcntl 4 (-1)] := by
  decide

/-! ## Inbound hand-off `Server.Handle` -/

theorem Handle_of_ok (S : Int) (sys : Sys) (rc : Int) (st st1 : State) (conn : Conn) (fd : Int)
    (h : connToSocket sys st conn = (st1, .ret (fd, none))) :
    Handle S sys rc st conn =
      if rc ≠ 0 then
        if rc = S then (close (st1.emit (.dqlite_handle fd rc)) fd, .ret (some .ErrServerStopped))
        else (close (st1.emit (.dqlite_handle fd rc)) fd,
          .ret (some (.Errorf ("hadle failed with " ++ toString rc))))
      else (st1.emit (.dqlite_handle fd rc), .ret none) := by
  simp only [Handle, h]

theorem Handle_of_err (S : Int) (sys : Sys) (rc : Int) (st st1 : State) (conn : Conn) (fd : Int)
    (e : GoError) (h : connToSocket sys st conn = (st1, .ret (fd, some e))) :
    Handle S sys rc st conn = (st1, .ret (some e)) := by
  simp only [Handle, h]

theorem not_mem_openFds_close (st : State) (fd : Int) : fd ∉ (close st fd).openFds := by
  simp [close, State.openFds, List.mem_map, List.mem_filter]

theorem dup_trace (sys : Sys) (st : State) (fd : Int) :
    (dup sys st fd).1.trace = st.trace ++ [.dup fd (dup sys st fd).2] := by
  unfold dup
  split <;> rfl

theorem fcntl_trace (sys : Sys) (st : State) (fd : Int) :
    (fcntlSetfdCloexec sys st fd).1.trace
      = st.trace ++ [.fcntl fd (fcntlSetfdCloexec sys st fd).2] := by
  unfold fcntlSetfdCloexec
  split <;> rfl

theorem dupCloexec_trace (sys : Sys) (st : State) (fd : Int) :
    ∃ evs, (dupCloexec sys st fd).1.trace = st.trace ++ evs ∧
      ∀ x ∈ evs, x.isHandle = false ∧ x.isClose = false ∧ x.isConnClose = false ∧
        x.isDial = false := by
  unfold dupCloexec
  by_cases h1 : (dup sys st fd).2 < 0
  · simp only [h1, if_true]
    exact ⟨_, dup_trace sys st fd, by
      simp [Event.isHandle, Event.isClose, Event.isConnClose, Event.isDial]⟩
  · simp only [h1, if_false]
    have ht : (fcntlSetfdCloexec sys (dup sys st fd).1 (dup sys st fd).2).1.trace
        = st.trace ++ [.dup fd (dup sys st fd).2,
            .fcntl (dup sys st fd).2
              (fcntlSetfdCloexec sys (dup sys st fd).1 (dup sys st fd).2).2] := by
      rw [fcntl_trace, dup_trace]
      simp
    split <;> exact ⟨_, ht, by
      simp [Event.isHandle, Event.isClose, Event.isConnClose, Event.isDial]⟩

theorem connToSocket_err_trace (sys : Sys) (st : State) (conn : Conn) (fd : Int) (e : GoError)
    (h : (connToSocket sys st conn).2 = .ret (fd, some e)) :
    ∃ evs, (connToSocket sys st conn).1.trace = st.trace ++ evs ∧
      ∀ x ∈ evs, x.isHandle = false ∧ x.isClose = false ∧ x.isConnClose = false ∧
        x.isDial = false := by
  unfold connToSocket at h ⊢
  split
  · rename_i hf
    simp [hf] at h
  · exact ⟨[.File conn.id], rfl, by simp [Event.isHandle, Event.isClose, Event.isConnClose,
      Event.isDial]⟩
  · rename_i fd1 hf
    simp only [hf] at h
    by_cases hneg : (dupCloexec sys (st.emit (.File conn.id)) fd1).2 < 0
    · simp only [hneg, if_true]
      obtain ⟨evs, h1, h2⟩ := dupCloexec_trace sys (st.emit (.File conn.id)) fd1
      refine ⟨.File conn.id :: evs, ?_, ?_⟩
      · rw [h1]
        simp [State.emit]
      · intro x hx
        rcases List.mem_cons.mp hx with hx | hx
        · subst hx
          simp [Event.isHandle, Event.isClose, Event.isConnClose, Event.isDial]
        · exact h2 x hx
    · simp [hneg] at h

/-- C1: when the hand-off `connToSocket` succeeds with descriptor `fd`,
`Server.Handle` calls the native `dqlite_handle` once, with `fd`; if the native
call returns 0, `Handle` returns nil, issues no `close` and `fd` stays open; if
it returns `DQLITE_STOPPED`, `Handle` returns `ErrServerStopped` and closes `fd`
exactly once; for any other non-zero code `Handle` returns an error other than
`ErrServerStopped` and closes `fd` exactly once. When the hand-off returns an
error, `Handle` returns that error and `dqlite_handle` is not called. -/
theorem Handle_contract (DQLITE_STOPPED : Int) (hS : DQLITE_STOPPED ≠ 0) (sys : Sys) (rc : Int)
    (st : State) (conn : Conn) :
    (∀ fd, (connToSocket sys st conn).2 = .ret (fd, none) →
      ((Handle DQLITE_STOPPED sys rc st conn).1.trace.drop st.trace.length).filter Event.isHandle
          = [.dqlite_handle fd rc] ∧
        (rc = 0 →
          (Handle DQLITE_STOPPED sys rc st conn).2 = .ret none ∧
          ((Handle DQLITE_STOPPED sys rc st conn).1.trace.drop st.trace.length).filter
            Event.isClose = [] ∧
          fd ∈ (Handle DQLITE_STOPPED sys rc st conn).1.openFds) ∧
        (rc = DQLITE_STOPPED →
          (Handle DQLITE_STOPPED sys rc st conn).2 = .ret (some .ErrServerStopped) ∧
          ((Handle DQLITE_STOPPED sys rc st conn).1.trace.drop st.trace.length).filter
            Event.isClose = [.close fd] ∧
          fd ∉ (Handle DQLITE_STOPPED sys rc st conn).1.openFds) ∧
        (rc ≠ 0 → rc ≠ DQLITE_STOPPED →
          (∃ e, (Handle DQLITE_STOPPED sys rc st conn).2 = .ret (some e) ∧
            e ≠ .ErrServerStopped) ∧
          ((Handle DQLITE_STOPPED sys rc st conn).1.trace.drop st.trace.length).filter
            Event.isClose = [.close fd] ∧
          fd ∉ (Handle DQLITE_STOPPED sys rc st conn).1.openFds)) ∧
    (∀ fd e, (connToSocket sys st conn).2 = .ret (fd, some e) →
      (Handle DQLITE_STOPPED sys rc st conn).2 = .ret (some e) ∧
        ((Handle DQLITE_STOPPED sys rc st conn).1.trace.drop st.trace.length).filter
          Event.isHandle = []) := by
  constructor
  · intro fd h
    obtain ⟨fd1, hfile, hdup, hfc, hfd⟩ := connToSocket_ret_inv sys st conn fd h
    obtain ⟨_, _, _, _, h5⟩ := connToSocket_ok_aux sys st conn fd1 hfile hdup hfc
    obtain ⟨_, _, hopen⟩ := connToSocket_ok_flags sys st conn fd1 hfile hdup hfc
    rw [← hfd] at h5 hopen
    have hpair : connToSocket sys st conn = ((connToSocket sys st conn).1, .ret (fd, none)) :=
      Prod.ext rfl h
    have hH := Handle_of_ok DQLITE_STOPPED sys rc st _ conn fd hpair
    by_cases h0 : rc = 0
    · have hS2 : ¬ rc = DQLITE_STOPPED := fun hh => hS (hh ▸ h0)
      rw [if_neg (not_not.mpr h0)] at hH
      rw [hH]
      refine ⟨?_, ?_, ?_, ?_⟩
      · simp [State.emit, h5, Event.isHandle]
      · intro _
        refine ⟨rfl, ?_, ?_⟩
        · simp [State.emit, h5, Event.isClose]
        · simpa [State.emit, State.openFds] using hopen
      · intro hh
        exact absurd hh hS2
      · intro hh
        exact absurd h0 hh
    · by_cases h1 : rc = DQLITE_STOPPED
      · rw [if_pos h0, if_pos h1] at hH
        rw [hH]
        refine ⟨?_, ?_, ?_, ?_⟩
        · simp [close, State.emit, h5, Event.isHandle]
        · intro hh
          exact absurd hh h0
        · intro _
          refine ⟨rfl, ?_, not_mem_openFds_close _ _⟩
          simp [close, State.emit, h5, Event.isClose]
        · intro _ hh
          exact absurd h1 hh
      · rw [if_pos h0, if_neg h1] at hH
        rw [hH]
        refine ⟨?_, ?_, ?_, ?_⟩
        · simp [close, State.emit, h5, Event.isHandle]
        · intro hh
          exact absurd hh h0
        · intro hh
          exact absurd hh h1
        · intro _ _
          refine ⟨⟨_, rfl, by simp⟩, ?_, not_mem_openFds_close _ _⟩
          simp [close, State.emit, h5, Event.isClose]
  · intro fd e h
    have hpair : connToSocket sys st conn = ((connToSocket sys st conn).1, .ret (fd, some e)) :=
      Prod.ext rfl h
    rw [Handle_of_err DQLITE_STOPPED sys rc st _ conn fd e hpair]
    refine ⟨rfl, ?_⟩
    obtain ⟨evs, h1, h2⟩ := connToSocket_err_trace sys st conn fd e h
    rw [h1]
    simp only [List.drop_left, List.filter_eq_nil_iff]
    intro x hx
    simp [(h2 x hx).1]

theorem Handle_contract_witness :
    ((Handle 9 sysOk 0 sampleState sampleConn).2 = .ret none ∧
      (4 : Int) ∈ (Handle 9 sysOk 0 sampleState sampleConn).1.openFds) ∧
    ((Handle 9 sysOk 9 sampleState sampleConn).2 = .ret (some .ErrServerStopped) ∧
      ((Handle 9 sysOk 9 sampleState sampleConn).1.trace.drop sampleState.trace.length).filter
        Event.isClose = [.close 4] ∧
      (4 : Int) ∉ (Handle 9 sysOk 9 sampleState sampleConn).1.openFds) ∧
    (((Handle 9 sysOk 1 sampleState sampleConn).1.trace.drop sampleState.trace.length).filter
        Event.isClose = [.close 4]) ∧
    ((Handle 9 sysOk 0 sampleState brokenConn).2 = .ret (some (.foreign 1)) ∧
      ((Handle 9 sysOk 0 sampleState brokenConn).1.trace.drop sampleState.trace.length).filter
        Event.isHandle = []) :=
  ⟨⟨(((Handle_contract 9 (by decide) sysOk 0 sampleState sampleConn).1 4
        (by decide)).2.1 rfl).1,
      (((Handle_contract 9 (by decide) sysOk 0 sampleState sampleConn).1 4
        (by decide)).2.1 rfl).2.2⟩,
    ((Handle_contract 9 (by decide) sysOk 9 sampleState sampleConn).1 4 (by decide)).2.2.1 rfl,
    ((((Handle_contract 9 (by decide) sysOk 1 sampleState sampleConn).1 4 (by decide)).2.2.2
      (by decide) (by decide)).2.1),
    (Handle_contract 9 (by decide) sysOk 0 sampleState brokenConn).2 (-1) (.foreign 1)
      (by decide)⟩

/-! ## Outbound hand-off `connectWithDial` -/

theorem connToSocket_trace (sys : Sys) (st : State) (conn : Conn) :
    ∃ evs, (connToSocket sys st conn).1.trace = st.trace ++ evs ∧
      ∀ x ∈ evs, x.isHandle = false ∧ x.isClose = false ∧ x.isDial = false := by
  unfold connToSocket
  split
  · exact ⟨[], by simp, by simp⟩
  · exact ⟨[.File conn.id], rfl, by simp [Event.isHandle, Event.isClose, Event.isDial]⟩
  · rename_i fd1 hf
    obtain ⟨evs, h1, h2⟩ := dupCloexec_trace sys (st.emit (.File conn.id)) fd1
    by_cases hneg : (dupCloexec sys (st.emit (.File conn.id)) fd1).2 < 0
    · simp only [hneg, if_true]
      refine ⟨.File conn.id :: evs, ?_, ?_⟩
      · rw [h1]
        simp [State.emit]
      · intro x hx
        rcases List.mem_cons.mp hx with hx | hx
        · subst hx
          simp [Event.isHandle, Event.isClose, Event.isDial]
        · exact ⟨(h2 x hx).1, (h2 x hx).2.1, (h2 x hx).2.2.2⟩
    · simp only [hneg, if_false]
      refine ⟨.File conn.id :: (evs ++ [.connClose conn.id]), ?_, ?_⟩
      · simp only [Conn.Close, hf, h1]
        simp [State.emit]
      · intro x hx
        rcases List.mem_cons.mp hx with hx | hx
        · subst hx
          simp [Event.isHandle, Event.isClose, Event.isDial]
        · rcases List.mem_append.mp hx with hx | hx
          · exact ⟨(h2 x hx).1, (h2 x hx).2.1, (h2 x hx).2.2.2⟩
          · simp only [List.mem_singleton] at hx
            subst hx
            simp [Event.isHandle, Event.isClose, Event.isDial]

/-- C3: for a registered dial handle and any peer, `connectWithDial` calls the
registered closure exactly once, with the peer's address and a context of 5
seconds; it returns 0 with `*fd` written exactly when the closure returns
without error and `connToSocket` succeeds on the connection, and then `*fd` is
the descriptor `connToSocket` returned; when the closure returns an error it
returns `RAFT_NOCONNECTION`, makes no further call (so `connToSocket` is not
entered) and does not write `*fd`. -/
theorem connectWithDial_contract (RAFT_NOCONNECTION : Int) (hN : RAFT_NOCONNECTION ≠ 0)
    (sys : Sys) (st : State) (handle : Nat) (server : dqlite_server) (dial : DialFunc)
    (hreg : st.connectRegistry handle = some dial) :
    ((connectWithDial RAFT_NOCONNECTION sys st handle server).1.trace.drop
        st.trace.length).filter Event.isDial
      = [.dial dial.id (5 * Second) (GoString server.address)] ∧
    (∀ w, (connectWithDial RAFT_NOCONNECTION sys st handle server).2 = .ret (0, w) ↔
      ∃ socket, w = some socket ∧
        (dial.run (5 * Second) (GoString server.address) st.fds).1.2 = none ∧
        (connToSocket sys
          { st with fds := (dial.run (5 * Second) (GoString server.address) st.fds).2
                    trace := st.trace ++
                      [.dial dial.id (5 * Second) (GoString server.address)] }
          (dial.run (5 * Second) (GoString server.address) st.fds).1.1).2
          = .ret (socket, none)) ∧
    ((dial.run (5 * Second) (GoString server.address) st.fds).1.2 ≠ none →
      (connectWithDial RAFT_NOCONNECTION sys st handle server).2
        = .ret (RAFT_NOCONNECTION, none) ∧
      (connectWithDial RAFT_NOCONNECTION sys st handle server).1.trace
        = st.trace ++ [.dial dial.id (5 * Second) (GoString server.address)] ∧
      (connectWithDial RAFT_NOCONNECTION sys st handle server).1.fds
        = (dial.run (5 * Second) (GoString server.address) st.fds).2) := by
  obtain ⟨evs, ht, hevs⟩ := connToSocket_trace sys
    { st with fds := (dial.run (5 * Second) (GoString server.address) st.fds).2
              trace := st.trace ++ [.dial dial.id (5 * Second) (GoString server.address)] }
    (dial.run (5 * Second) (GoString server.address) st.fds).1.1
  have hfil : List.filter Event.isDial evs = [] := by
    rw [List.filter_eq_nil_iff]
    intro x hx
    simp [(hevs x hx).2.2]
  unfold connectWithDial
  simp only [hreg]
  cases hr : (dial.run (5 * Second) (GoString server.address) st.fds).1.2 with
  | some e =>
    simp only [hr]
    refine ⟨by simp [Event.isDial], ?_, ?_⟩
    · intro w
      constructor
      · intro h
        simp only [Outcome.ret.injEq, Prod.mk.injEq] at h
        exact absurd h.1 hN
      · rintro ⟨_, _, h, _⟩
        simp at h
    · intro _
      refine ⟨?_, ?_, ?_⟩ <;> first | rfl | trivial
  | none =>
    simp only [hr]
    rcases hcs : connToSocket sys
      { st with fds := (dial.run (5 * Second) (GoString server.address) st.fds).2
                trace := st.trace ++ [.dial dial.id (5 * Second) (GoString server.address)] }
      (dial.run (5 * Second) (GoString server.address) st.fds).1.1 with ⟨st2, out⟩
    rw [hcs] at ht
    simp only at ht
    have htr : (List.drop st.trace.length st2.trace).filter Event.isDial
        = [.dial dial.id (5 * Second) (GoString server.address)] := by
      rw [ht, List.append_assoc, List.drop_left, List.filter_append, hfil]
      simp [Event.isDial]
    cases out with
    | fault =>
      refine ⟨htr, ?_, ?_⟩
      · intro w
        constructor
        · intro h
          simp at h
        · rintro ⟨_, _, _, h⟩
          simp at h
      · intro h
        exact absurd rfl h
    | ret p =>
      obtain ⟨v, oe⟩ := p
      cases oe with
      | some e =>
        refine ⟨htr, ?_, ?_⟩
        · intro w
          constructor
          · intro h
            simp only [Outcome.ret.injEq, Prod.mk.injEq] at h
            exact absurd h.1 hN
          · rintro ⟨_, _, _, h⟩
            simp at h
        · intro h
          exact absurd rfl h
      | none =>
        refine ⟨htr, ?_, ?_⟩
        · intro w
          constructor
          · intro h
            simp only [Outcome.ret.injEq, Prod.mk.injEq, true_and] at h
            refine ⟨v, h.symm, ?_, ?_⟩ <;> first | rfl | trivial
          · rintro ⟨socket, hw, _, h⟩
            simp only [Outcome.ret.injEq, Prod.mk.injEq, and_true] at h
            subst hw
            subst h
            rfl
        · intro h
          exact absurd rfl h

theorem connectWithDial_contract_witness :
    ((connectWithDial 16 sysOk dialState 101 samplePeer).1.trace.drop
        dialState.trace.length).filter Event.isDial = [.dial 1 5000000000 [98]] ∧
    (connectWithDial 16 sysOk dialState 101 samplePeer).2 = .ret (0, some 5) ∧
    ((connectWithDial 16 sysOk dialState 103 samplePeer).2 = .ret (16, none) ∧
      (connectWithDial 16 sysOk dialState 103 samplePeer).1.trace
        = dialState.trace ++ [.dial 3 5000000000 [98]] ∧
      (connectWithDial 16 sysOk dialState 103 samplePeer).1.fds = dialState.fds) :=
  ⟨(connectWithDial_contract 16 (by decide) sysOk dialState 101 samplePeer dialOk rfl).1,
    ((connectWithDial_contract 16 (by decide) sysOk dialState 101 samplePeer dialOk rfl).2.1
      (some 5)).mpr ⟨5, rfl, rfl, by decide⟩,
    (connectWithDial_contract 16 (by decide) sysOk dialState 103 samplePeer dialErr rfl).2.2
      (by decide)⟩

/-- C7 (the code at the failing inputs): the closure registered under handle 102
returns connection 9 whose `File()` fails, and the closure under handle 101
returns connection 9 while `dup` fails; in both runs `connectWithDial` returns
`RAFT_NOCONNECTION` (here 16) and the calls made contain no `conn.Close()`: the
descriptor 4 that the closure opened stays open. -/
theorem connectWithDial_failed_handoff_keeps_conn_open :
    (connectWithDial 16 sysOk dialState 102 samplePeer).2 = .ret (16, none) ∧
    (connectWithDial 16 sysOk dialState 102 samplePeer).1.trace.drop dialState.trace.length
      = [.dial 2 5000000000 [98], .File 9] ∧
    (connectWithDial 16 sysOk dialState 102 samplePeer).1.openFds = [0, 1, 2, 3, 4] ∧
    (connectWithDial 16 sysDupFails dialState 101 samplePeer).2 = .ret (16, none) ∧
    (connectWithDial 16 sysDupFails dialState 101 samplePeer).1.trace.drop dialState.trace.length
      = [.dial 1 5000000000 [98], .File 9, .dup 4 (-1)] ∧
    (connectWithDial 16 sysDupFails dialState 101 samplePeer).1.openFds = [0, 1, 2, 3, 4] := by
  decide

/-! ## The log bridge -/

/-- C9 (the code at the failing input): with closure 5 registered under handle
101, the trampoline invoked with handle 101, level 1 and the text "hi" makes no
call at all, so the closure is not called; `logWithLogger`, which the
trampoline would have to call, does forward `(1, "hi")` to closure 5. -/
theorem logTrampoline_does_not_forward :
    logState.logRegistry 101 = some { id := 5 } ∧
    logState.trace = [.configLogger 101] ∧
    (logTrampoline logState 101 1 [104, 105]).trace.filter Event.isLog = [] ∧
    (logWithLogger logState 101 1 (vsnprintf EMIT_BUF_LEN [104, 105])).1.trace.filter Event.isLog
      = [.log 5 1 [104, 105]] := by
  decide

/-! ## The callback registries -/

theorem dialsOf_append (a b : List Registration) : dialsOf (a ++ b) = dialsOf a ++ dialsOf b := by
  induction a with
  | nil => rfl
  | cons r rest ih => cases r <;> simp [dialsOf, ih]

theorem logsOf_append (a b : List Registration) : logsOf (a ++ b) = logsOf a ++ logsOf b := by
  induction a with
  | nil => rfl
  | cons r rest ih => cases r <;> simp [logsOf, ih]

theorem dialHandles_append (a b : List Event) :
    dialHandles (a ++ b) = dialHandles a ++ dialHandles b := by
  induction a with
  | nil => rfl
  | cons e rest ih => cases e <;> simp [dialHandles, ih]

theorem logHandles_append (a b : List Event) :
    logHandles (a ++ b) = logHandles a ++ logHandles b := by
  induction a with
  | nil => rfl
  | cons e rest ih => cases e <;> simp [logHandles, ih]

theorem runRegistrations_append (st : State) (a b : List Registration) :
    runRegistrations st (a ++ b) = runRegistrations (runRegistrations st a) b := by
  simp [runRegistrations, List.foldl_append]

theorem RegInv_init (fds : FdTable) : RegInv [] (State.init fds) := by
  refine ⟨rfl, rfl, rfl, rfl, ?_, ?_, ?_, ?_⟩
  · intro i f h
    simp [dialsOf] at h
  · intro i f h
    simp [logsOf] at h
  · intro h _
    rfl
  · intro h _
    rfl

theorem uintptr_small (x : Nat) (h : x < 2 ^ 64) : uintptr x = x := by
  unfold uintptr
  exact Nat.mod_eq_of_lt (by norm_num at h; exact h)

theorem RegInv_dial (rs : List Registration) (st : State) (f : DialFunc)
    (hinv : RegInv rs st) (hb : (dialsOf (rs ++ [.dial f])).length < 2 ^ 64 - 100) :
    RegInv (rs ++ [.dial f]) (SetDialFunc st f) := by
  obtain ⟨h1, h2, h3, h4, h5, h6, h7, h8⟩ := hinv
  have hd : dialsOf (rs ++ [.dial f]) = dialsOf rs ++ [f] := by
    rw [dialsOf_append]; rfl
  have hl : logsOf (rs ++ [.dial f]) = logsOf rs := by
    rw [logsOf_append]; simp [logsOf]
  rw [hd] at hb
  simp only [List.length_append, List.length_singleton] at hb
  have hidx : uintptr (st.connectIndex + 1) = 101 + (dialsOf rs).length := by
    rw [uintptr_small _ (by rw [h1]; omega), h1]
    omega
  rw [RegInv, hd, hl]
  simp only [SetDialFunc, hidx, List.length_append, List.length_singleton]
  refine ⟨by omega, h2, ?_, ?_, ?_, h6, ?_, h8⟩
  · rw [dialHandles_append, h3, List.range'_1_concat]
    rfl
  · rw [logHandles_append, h4]
    simp [logHandles]
  · intro i g hg
    by_cases hi : i < (dialsOf rs).length
    · rw [List.getElem?_append_left hi] at hg
      rw [Function.update_noteq (by omega)]
      exact h5 i g hg
    · have hlen : (dialsOf rs).length ≤ i := by omega
      by_cases hi2 : i = (dialsOf rs).length
      · subst hi2
        rw [List.getElem?_concat_length] at hg
        rw [Function.update_same]
        exact hg
      · rw [List.getElem?_eq_none (by simp; omega)] at hg
        simp at hg
  · intro h hh
    rw [Function.update_noteq (by omega)]
    exact h7 h (by omega)

theorem RegInv_log (rs : List Registration) (st : State) (f : LogFunc)
    (hinv : RegInv rs st) (hb : (logsOf (rs ++ [.log f])).length < 2 ^ 64 - 100) :
    RegInv (rs ++ [.log f]) (SetLogFunc st f) := by
  obtain ⟨h1, h2, h3, h4, h5, h6, h7, h8⟩ := hinv
  have hl : logsOf (rs ++ [.log f]) = logsOf rs ++ [f] := by
    rw [logsOf_append]; rfl
  have hd : dialsOf (rs ++ [.log f]) = dialsOf rs := by
    rw [dialsOf_append]; simp [dialsOf]
  rw [hl] at hb
  simp only [List.length_append, List.length_singleton] at hb
  have hidx : uintptr (st.logIndex + 1) = 101 + (logsOf rs).length := by
    rw [uintptr_small _ (by rw [h2]; omega), h2]
    omega
  rw [RegInv, hd, hl]
  simp only [SetLogFunc, hidx, List.length_append, List.length_singleton]
  refine ⟨h1, by omega, ?_, ?_, h5, ?_, h7, ?_⟩
  · rw [dialHandles_append, h3]
    simp [dialHandles]
  · rw [logHandles_append, h4, List.range'_1_concat]
    rfl
  · intro i g hg
    by_cases hi : i < (logsOf rs).length
    · rw [List.getElem?_append_left hi] at hg
      rw [Function.update_noteq (by omega)]
      exact h6 i g hg
    · have hlen : (logsOf rs).length ≤ i := by omega
      by_cases hi2 : i = (logsOf rs).length
      · subst hi2
        rw [List.getElem?_concat_length] at hg
        rw [Function.update_same]
        exact hg
      · rw [List.getElem?_eq_none (by simp; omega)] at hg
        simp at hg
  · intro h hh
    rw [Function.update_noteq (by omega)]
    exact h8 h (by omega)

theorem RegInv_run (fds : FdTable) (rs : List Registration)
    (hd : (dialsOf rs).length < 2 ^ 64 - 100) (hl : (logsOf rs).length < 2 ^ 64 - 100) :
    RegInv rs (runRegistrations (State.init fds) rs) := by
  induction rs using List.reverseRecOn with
  | nil => exact RegInv_init fds
  | append_singleton rs r ih =>
    have hd2 : (dialsOf rs).length < 2 ^ 64 - 100 := by
      rw [dialsOf_append, List.length_append] at hd
      omega
    have hl2 : (logsOf rs).length < 2 ^ 64 - 100 := by
      rw [logsOf_append, List.length_append] at hl
      omega
    rw [runRegistrations_append]
    cases r with
    | dial f => exact RegInv_dial rs _ f (ih hd2 hl2) hd
    | log f => exact RegInv_log rs _ f (ih hd2 hl2) hl

theorem RegInv_dial_persist (fds : FdTable) (pre post : List Registration)
    (hd : (dialsOf (pre ++ post)).length < 2 ^ 64 - 100)
    (hl : (logsOf (pre ++ post)).length < 2 ^ 64 - 100) (h : Nat) (f : DialFunc)
    (hf : (runRegistrations (State.init fds) pre).connectRegistry h = some f) :
    (runRegistrations (State.init fds) (pre ++ post)).connectRegistry h = some f := by
  have hd2 : (dialsOf pre).length < 2 ^ 64 - 100 := by
    rw [dialsOf_append, List.length_append] at hd
    omega
  have hl2 : (logsOf pre).length < 2 ^ 64 - 100 := by
    rw [logsOf_append, List.length_append] at hl
    omega
  obtain ⟨_, _, _, _, p5, _, p7, _⟩ := RegInv_run fds pre hd2 hl2
  obtain ⟨_, _, _, _, q5, _, _, _⟩ := RegInv_run fds (pre ++ post) hd hl
  by_cases hr : h < 101 ∨ 100 + (dialsOf pre).length < h
  · rw [p7 h hr] at hf
    simp at hf
  · push_neg at hr
    obtain ⟨i, rfl⟩ : ∃ i, h = 101 + i := ⟨h - 101, by omega⟩
    have hi : i < (dialsOf pre).length := by omega
    have hg : (dialsOf pre)[i]? = some ((dialsOf pre)[i]) := List.getElem?_eq_getElem hi
    have hpre := p5 i _ hg
    rw [hpre] at hf
    have hfe : (dialsOf pre)[i] = f := Option.some.inj hf
    apply q5 i f
    rw [dialsOf_append, List.getElem?_append_left hi, hg, hfe]

theorem RegInv_log_persist (fds : FdTable) (pre post : List Registration)
    (hd : (dialsOf (pre ++ post)).length < 2 ^ 64 - 100)
    (hl : (logsOf (pre ++ post)).length < 2 ^ 64 - 100) (h : Nat) (f : LogFunc)
    (hf : (runRegistrations (State.init fds) pre).logRegistry h = some f) :
    (runRegistrations (State.init fds) (pre ++ post)).logRegistry h = some f := by
  have hd2 : (dialsOf pre).length < 2 ^ 64 - 100 := by
    rw [dialsOf_append, List.length_append] at hd
    omega
  have hl2 : (logsOf pre).length < 2 ^ 64 - 100 := by
    rw [logsOf_append, List.length_append] at hl
    omega
  obtain ⟨_, _, _, _, _, p6, _, p8⟩ := RegInv_run fds pre hd2 hl2
  obtain ⟨_, _, _, _, _, q6, _, _⟩ := RegInv_run fds (pre ++ post) hd hl
  by_cases hr : h < 101 ∨ 100 + (logsOf pre).length < h
  · rw [p8 h hr] at hf
    simp at hf
  · push_neg at hr
    obtain ⟨i, rfl⟩ : ∃ i, h = 101 + i := ⟨h - 101, by omega⟩
    have hi : i < (logsOf pre).length := by omega
    have hg : (logsOf pre)[i]? = some ((logsOf pre)[i]) := List.getElem?_eq_getElem hi
    have hpre := p6 i _ hg
    rw [hpre] at hf
    have hfe : (logsOf pre)[i] = f := Option.some.inj hf
    apply q6 i f
    rw [logsOf_append, List.getElem?_append_left hi, hg, hfe]

theorem range_getElem_some (k i h : Nat) (hh : (List.range' 101 k)[i]? = some h) :
    h = 101 + i := by
  obtain ⟨hi, he⟩ := List.getElem?_eq_some.mp hh
  rw [List.getElem_range'] at he
  omega

/-- C2: for every finite sequence of `SetDialFunc` and `SetLogFunc` calls from
the initial registries, with fewer than `2 ^ 64 - 100` calls per registry, the
handles given to the native engine by `SetDialFunc` are pairwise distinct, so
are those given by `SetLogFunc`, every call issues one handle, and after the
whole sequence the dial registry maps the i-th dial handle to the closure of
the i-th `SetDialFunc` call and the log registry maps the i-th log handle to
the closure of the i-th `SetLogFunc` call; an entry present after a prefix of
the sequence is still present, unchanged, after the whole sequence, and a
registration in one registry leaves the other registry and its index as they
were. -/
theorem registry_round_trip (fds : FdTable) (rs : List Registration)
    (hd : (dialsOf rs).length < 2 ^ 64 - 100) (hl : (logsOf rs).length < 2 ^ 64 - 100) :
    (dialHandles (runRegistrations (State.init fds) rs).trace).Nodup ∧
    (logHandles (runRegistrations (State.init fds) rs).trace).Nodup ∧
    (dialHandles (runRegistrations (State.init fds) rs).trace).length = (dialsOf rs).length ∧
    (logHandles (runRegistrations (State.init fds) rs).trace).length = (logsOf rs).length ∧
    (∀ (i h : Nat) (f : DialFunc),
      (dialHandles (runRegistrations (State.init fds) rs).trace)[i]? = some h →
      (dialsOf rs)[i]? = some f →
      (runRegistrations (State.init fds) rs).connectRegistry h = some f) ∧
    (∀ (i h : Nat) (f : LogFunc),
      (logHandles (runRegistrations (State.init fds) rs).trace)[i]? = some h →
      (logsOf rs)[i]? = some f →
      (runRegistrations (State.init fds) rs).logRegistry h = some f) ∧
    (∀ pre post, rs = pre ++ post → ∀ h f,
      (runRegistrations (State.init fds) pre).connectRegistry h = some f →
      (runRegistrations (State.init fds) rs).connectRegistry h = some f) ∧
    (∀ pre post, rs = pre ++ post → ∀ h f,
      (runRegistrations (State.init fds) pre).logRegistry h = some f →
      (runRegistrations (State.init fds) rs).logRegistry h = some f) ∧
    (∀ st f, (SetDialFunc st f).logRegistry = st.logRegistry ∧
      (SetDialFunc st f).logIndex = st.logIndex) ∧
    (∀ st f, (SetLogFunc st f).connectRegistry = st.connectRegistry ∧
      (SetLogFunc st f).connectIndex = st.connectIndex) := by
  obtain ⟨_, _, h3, h4, h5, h6, _, _⟩ := RegInv_run fds rs hd hl
  refine ⟨?_, ?_, ?_, ?_, ?_, ?_, ?_, ?_, ?_, ?_⟩
  · rw [h3]
    exact List.nodup_range' _ _
  · rw [h4]
    exact List.nodup_range' _ _
  · rw [h3]
    simp
  · rw [h4]
    simp
  · intro i h f hh hf
    rw [h3] at hh
    rw [range_getElem_some _ _ _ hh]
    exact h5 i f hf
  · intro i h f hh hf
    rw [h4] at hh
    rw [range_getElem_some _ _ _ hh]
    exact h6 i f hf
  · intro pre post hrs h f hf
    subst hrs
    exact RegInv_dial_persist fds pre post hd hl h f hf
  · intro pre post hrs h f hf
    subst hrs
    exact RegInv_log_persist fds pre post hd hl h f hf
  · intro st f
    exact ⟨rfl, rfl⟩
  · intro st f
    exact ⟨rfl, rfl⟩

theorem registry_round_trip_witness :
    (dialHandles (runRegistrations (State.init []) sampleRegs).trace).Nodup ∧
    (logHandles (runRegistrations (State.init []) sampleRegs).trace).Nodup ∧
    (runRegistrations (State.init []) sampleRegs).connectRegistry 101 = some dialOk ∧
    (runRegistrations (State.init []) sampleRegs).connectRegistry 102 = some dialErr ∧
    (runRegistrations (State.init []) sampleRegs).logRegistry 101 = some { id := 5 } :=
  ⟨(registry_round_trip [] sampleRegs (by decide) (by decide)).1,
    (registry_round_trip [] sampleRegs (by decide) (by decide)).2.1,
    (registry_round_trip [] sampleRegs (by decide) (by decide)).2.2.2.2.1 0 101 dialOk rfl rfl,
    (registry_round_trip [] sampleRegs (by decide) (by decide)).2.2.2.2.1 1 102 dialErr rfl rfl,
    (registry_round_trip [] sampleRegs (by decide) (by decide)).2.2.2.2.2.1 0 101
      { id := 5 } rfl rfl⟩

/-! ## Membership marshalling: `Bootstrap` and `Cluster` -/

theorem cint_small (i : Nat) (h : i < 2 ^ 31) : cint (i : Int) = (i : Int) := by
  unfold cint
  norm_num at h
  omega

theorem GoString_CString (s : List Byte) (h : (0 : Byte) ∉ s) : GoString (CString s) = s := by
  unfold GoString CString
  induction s with
  | nil => simp
  | cons b rest ih =>
    have hb : b ≠ 0 := by
      intro hb
      apply h
      simp [hb]
    have hr : (0 : Byte) ∉ rest := by
      intro hr
      apply h
      simp [hr]
    rw [List.cons_append, List.takeWhile_cons_of_pos (by simpa using hb), ih hr]

theorem emit_nil (st : State) : ({ st with trace := st.trace ++ [] } : State) = st := by
  cases st
  simp

theorem fillServers_cons (c c1 : Option (List dqlite_server)) (i : Nat) (s : ServerInfo)
    (rest : List ServerInfo) (st : State)
    (h : setServer c (cint (i : Int)) (cunsigned s.ID) (CString s.Address) = .ret c1) :
    fillServers c i (s :: rest) st
      = fillServers c1 (i + 1) rest
          (st.emit (.setServer i (cunsigned s.ID) (CString s.Address))) := by
  simp only [fillServers, h]

theorem fillServers_ok : ∀ (rest : List ServerInfo) (done todo : List dqlite_server) (st : State),
    rest.length ≤ todo.length → done.length + rest.length ≤ 2 ^ 31 →
    ∃ evs, (∀ x ∈ evs, x.isBootstrap = false) ∧
      fillServers (some (done ++ todo)) done.length rest st
        = ({ st with trace := st.trace ++ evs },
            .ret (some (done ++ rest.map toNative ++ todo.drop rest.length))) := by
  intro rest
  induction rest with
  | nil =>
    intro done todo st _ _
    refine ⟨[], by simp, ?_⟩
    simp [fillServers, emit_nil]
  | cons s rest ih =>
    intro done todo st h1 h2
    cases todo with
    | nil => simp at h1
    | cons t todo =>
      simp only [List.length_cons] at h1 h2
      have hc : cint (done.length : Int) = (done.length : Int) :=
        cint_small _ (by omega)
      have hset : setServer (some (done ++ t :: todo)) (cint (done.length : Int))
          (cunsigned s.ID) (CString s.Address)
          = .ret (some ((done ++ [toNative s]) ++ todo)) := by
        rw [hc]
        unfold setServer
        simp [toNative]
      obtain ⟨evs, he, hf⟩ := ih (done ++ [toNative s]) todo
        (st.emit (.setServer done.length (cunsigned s.ID) (CString s.Address)))
        (by omega) (by simp; omega)
      refine ⟨.setServer done.length (cunsigned s.ID) (CString s.Address) :: evs, ?_, ?_⟩
      · intro x hx
        rcases List.mem_cons.mp hx with hx | hx
        · subst hx
          rfl
        · exact he x hx
      · have hlen : (done ++ [toNative s]).length = done.length + 1 := by simp
        rw [hlen] at hf
        rw [fillServers_cons _ _ _ _ _ _ hset, hf]
        simp only [State.emit, List.map_cons, List.drop_succ_cons, List.length_cons,
          List.append_assoc, List.singleton_append]

theorem allocServers_ok (st : State) (n : Nat) :
    allocServers false st (n : Int) false
      = (st.emit (.malloc (n : Int) false),
          .ret (0, some (List.replicate n { id := 0, address := [] }))) := by
  simp [allocServers]

theorem Bootstrap_ok_eq (CANT : Int) (rc : Int) (st : State) (servers : List ServerInfo)
    (hlen : servers.length < 2 ^ 31) :
    ∃ evs, (∀ x ∈ evs, x.isBootstrap = false) ∧
      Bootstrap CANT false rc st servers
        = ({ st with trace := st.trace ++ evs ++
                [.dqlite_bootstrap servers.length (some (servers.map toNative)) rc] },
            if rc ≠ 0 then
              if rc = CANT then .ret (some .ErrServerCantBootstrap)
              else .ret (some (.Errorf ("bootstrap failed with " ++ toString rc)))
            else .ret none) := by
  have hc : cint (servers.length : Int) = (servers.length : Int) := cint_small _ hlen
  have hu : cunsigned servers.length = servers.length := by
    unfold cunsigned
    norm_num at hlen
    omega
  obtain ⟨evs, he, hf⟩ := fillServers_ok servers []
    (List.replicate servers.length { id := 0, address := [] })
    (st.emit (.malloc (servers.length : Int) false)) (by simp) (by simp; omega)
  simp only [List.nil_append, List.length_nil, List.drop_replicate, Nat.sub_self,
    List.replicate_zero, List.append_nil] at hf
  refine ⟨.malloc (servers.length : Int) false :: evs, ?_, ?_⟩
  · intro x hx
    rcases List.mem_cons.mp hx with hx | hx
    · subst hx
      rfl
    · exact he x hx
  · unfold Bootstrap
    simp only [hc, hu, allocServers_ok, hf, ne_eq, not_true_eq_false, if_false]
    by_cases h0 : rc = 0
    · simp only [h0, not_true_eq_false, if_false, State.emit, List.append_assoc,
        List.singleton_append, List.cons_append, List.nil_append]
    · by_cases h1 : rc = CANT
      · subst h1
        simp only [h0, not_false_eq_true, if_true, State.emit, List.append_assoc,
          List.singleton_append, List.cons_append, List.nil_append]
      · simp only [h0, h1, not_false_eq_true, if_true, if_false, State.emit, List.append_assoc,
          List.singleton_append, List.cons_append, List.nil_append]

theorem readServers_succ (servers : Option (List dqlite_server)) (i k id : Nat)
    (address : List Byte) (infos : List ServerInfo)
    (hg : getServer servers (cint (i : Int)) = .ret (id, address))
    (hr : readServers servers (i + 1) k = .ret infos) :
    readServers servers i (k + 1) = .ret ({ ID := id, Address := GoString address } :: infos) := by
  simp only [readServers, hg, hr]

theorem readServers_ok : ∀ (xs pre : List dqlite_server),
    pre.length + xs.length ≤ 2 ^ 31 →
    readServers (some (pre ++ xs)) pre.length xs.length = .ret (xs.map fromNative) := by
  intro xs
  induction xs with
  | nil =>
    intro pre _
    rfl
  | cons x xs ih =>
    intro pre h
    simp only [List.length_cons] at h
    have hc : cint (pre.length : Int) = (pre.length : Int) := cint_small _ (by omega)
    have hg : getServer (some (pre ++ x :: xs)) (cint (pre.length : Int))
        = .ret (cunsigned x.id, x.address) := by
      have hget : (pre ++ x :: xs)[pre.length]? = some x := by
        rw [List.getElem?_append_right (Nat.le_refl _), Nat.sub_self]
        simp
      have hnn : (0 : Int) ≤ (pre.length : Int) := Int.ofNat_nonneg _
      rw [hc]
      unfold getServer
      simp only [hnn, if_true, Int.toNat_ofNat, hget]
    have hi := ih (pre ++ [x]) (by simp; omega)
    simp only [List.append_assoc, List.singleton_append, List.length_append,
      List.length_singleton] at hi
    rw [List.length_cons, readServers_succ _ _ _ _ _ _ hg hi]
    rfl

theorem fromNative_toNative (s : ServerInfo) (h : (0 : Byte) ∉ s.Address) :
    fromNative (toNative s) = { ID := s.ID % 2 ^ 32, Address := s.Address } := by
  unfold fromNative toNative
  simp only [GoString_CString _ h, cunsigned]
  norm_num

theorem Cluster_roundtrip (servers : List ServerInfo) (st : State)
    (hlen : servers.length < 2 ^ 31) (hnul : ∀ s ∈ servers, (0 : Byte) ∉ s.Address) :
    (Cluster 0 (some (servers.map toNative)) servers.length st).2
      = .ret (servers.map (fun s => { ID := s.ID % 2 ^ 32, Address := s.Address }), none) := by
  have hu : cunsigned servers.length = servers.length := by
    unfold cunsigned
    norm_num at hlen
    omega
  have hr := readServers_ok (servers.map toNative) [] (by simp; omega)
  simp only [List.nil_append, List.length_nil, List.length_map, List.map_map] at hr
  unfold Cluster
  simp only [hu, hr, ne_eq, not_true_eq_false, if_false]
  congr 2
  apply List.map_congr_left
  intro s hs
  exact fromNative_toNative s (hnul s hs)

/-- C5 (as the code has it): for a member list of fewer than `2 ^ 31` entries
whose native array is allocated, `Server.Bootstrap` calls the native `dqlite_bootstrap` once, with
count equal to the length of the list; it returns nil exactly when the native
call returns 0, `ErrServerCantBootstrap` exactly when the native call returns
`DQLITE_CANTBOOTSTRAP`, and an error other than `ErrServerCantBootstrap` for
every other non-zero code; whatever the native call returns, the registries,
their indices and the descriptor table are as before the call. -/
theorem Bootstrap_contract (DQLITE_CANTBOOTSTRAP : Int) (hC : DQLITE_CANTBOOTSTRAP ≠ 0)
    (rc : Int) (st : State) (servers : List ServerInfo) (hlen : servers.length < 2 ^ 31) :
    ((Bootstrap DQLITE_CANTBOOTSTRAP false rc st servers).1.trace.drop st.trace.length).filter
        Event.isBootstrap
      = [.dqlite_bootstrap servers.length (some (servers.map toNative)) rc] ∧
    ((Bootstrap DQLITE_CANTBOOTSTRAP false rc st servers).2 = .ret none ↔ rc = 0) ∧
    ((Bootstrap DQLITE_CANTBOOTSTRAP false rc st servers).2
        = .ret (some .ErrServerCantBootstrap) ↔ rc = DQLITE_CANTBOOTSTRAP) ∧
    (rc ≠ 0 → rc ≠ DQLITE_CANTBOOTSTRAP →
      ∃ e, (Bootstrap DQLITE_CANTBOOTSTRAP false rc st servers).2 = .ret (some e) ∧
        e ≠ .ErrServerCantBootstrap) ∧
    (Bootstrap DQLITE_CANTBOOTSTRAP false rc st servers).1.connectRegistry
      = st.connectRegistry ∧
    (Bootstrap DQLITE_CANTBOOTSTRAP false rc st servers).1.connectIndex = st.connectIndex ∧
    (Bootstrap DQLITE_CANTBOOTSTRAP false rc st servers).1.logRegistry = st.logRegistry ∧
    (Bootstrap DQLITE_CANTBOOTSTRAP false rc st servers).1.logIndex = st.logIndex ∧
    (Bootstrap DQLITE_CANTBOOTSTRAP false rc st servers).1.fds = st.fds := by
  obtain ⟨evs, he, hB⟩ := Bootstrap_ok_eq DQLITE_CANTBOOTSTRAP rc st servers hlen
  have hfil : List.filter Event.isBootstrap evs = [] := by
    rw [List.filter_eq_nil_iff]
    intro x hx
    simp [he x hx]
  have h1 := congrArg Prod.fst hB
  have h2 := congrArg Prod.snd hB
  simp only at h1 h2
  rw [h1]
  refine ⟨?_, ?_, ?_, ?_, rfl, rfl, rfl, rfl, rfl⟩
  · simp only [List.append_assoc, List.drop_left, List.filter_append, hfil]
    simp [Event.isBootstrap]
  · by_cases h0 : rc = 0
    · rw [if_neg (not_not.mpr h0)] at h2
      exact ⟨fun _ => h0, fun _ => h2⟩
    · by_cases hc : rc = DQLITE_CANTBOOTSTRAP
      · rw [if_pos h0, if_pos hc] at h2
        rw [h2]
        exact ⟨fun h => by simp at h, fun h => absurd h h0⟩
      · rw [if_pos h0, if_neg hc] at h2
        rw [h2]
        exact ⟨fun h => by simp at h, fun h => absurd h h0⟩
  · by_cases h0 : rc = 0
    · have hc : ¬ rc = DQLITE_CANTBOOTSTRAP := fun hh => hC (hh ▸ h0)
      rw [if_neg (not_not.mpr h0)] at h2
      rw [h2]
      exact ⟨fun h => by simp at h, fun h => absurd h hc⟩
    · by_cases hc : rc = DQLITE_CANTBOOTSTRAP
      · rw [if_pos h0, if_pos hc] at h2
        exact ⟨fun _ => hc, fun _ => h2⟩
      · rw [if_pos h0, if_neg hc] at h2
        rw [h2]
        exact ⟨fun h => by simp at h, fun h => absurd h hc⟩
  · intro h0 hc
    rw [if_pos h0, if_neg hc] at h2
    exact ⟨_, h2, by simp⟩

theorem Bootstrap_contract_witness :
    ((Bootstrap 10 false 10 sampleState sampleMembers).1.trace.drop
        sampleState.trace.length).filter Event.isBootstrap
      = [.dqlite_bootstrap 2 (some [{ id := 1, address := [97, 0] },
          { id := 2, address := [98, 0] }]) 10] ∧
    (Bootstrap 10 false 0 sampleState sampleMembers).2 = .ret none ∧
    (Bootstrap 10 false 10 sampleState sampleMembers).2
      = .ret (some .ErrServerCantBootstrap) ∧
    (∃ e, (Bootstrap 10 false 1 sampleState sampleMembers).2 = .ret (some e) ∧
      e ≠ .ErrServerCantBootstrap) :=
  ⟨(Bootstrap_contract 10 (by decide) 10 sampleState sampleMembers (by decide)).1,
    (Bootstrap_contract 10 (by decide) 0 sampleState sampleMembers (by decide)).2.1.mpr rfl,
    (Bootstrap_contract 10 (by decide) 10 sampleState sampleMembers (by decide)).2.2.1.mpr rfl,
    (Bootstrap_contract 10 (by decide) 1 sampleState sampleMembers (by decide)).2.2.2.1
      (by decide) (by decide)⟩

/-- C5 (counterexample): for the member list `{1, "a"}, {2, "b"}`, with `malloc`
returning NULL and a native engine that would return 0, `Server.Bootstrap`
stops in the first `setServer`, which stores through the NULL array: the native
`dqlite_bootstrap` is never called and nil is not returned. -/
theorem Bootstrap_without_array_makes_no_native_call :
    sampleMembers.length = 2 ∧
    (Bootstrap 10 true 0 sampleState sampleMembers).2 = .fault ∧
    (Bootstrap 10 true 0 sampleState sampleMembers).1.trace
      = [.malloc 2 true, .setServer 0 1 [97, 0]] ∧
    (Bootstrap 10 true 0 sampleState sampleMembers).1.trace.filter Event.isBootstrap = [] ∧
    (Bootstrap 10 true 0 sampleState sampleMembers).2 ≠ .ret none := by
  decide

/-- C6 (as the code has it): for a member list of fewer than `2 ^ 31` entries
whose addresses hold no NUL byte, `Server.Bootstrap` hands the native engine
an array with one entry per member, and `Server.Cluster`, given that array and
count back, returns a list of the same length whose i-th entry has the i-th
address unchanged and the i-th ID reduced modulo `2 ^ 32`; when every ID is
below `2 ^ 32` the list returned is the list given to `Bootstrap`. -/
theorem serverInfo_roundtrip (DQLITE_CANTBOOTSTRAP : Int) (rc : Int) (st st2 : State)
    (servers : List ServerInfo) (hlen : servers.length < 2 ^ 31)
    (hnul : ∀ s ∈ servers, (0 : Byte) ∉ s.Address) :
    ((Bootstrap DQLITE_CANTBOOTSTRAP false rc st servers).1.trace.drop st.trace.length).filter
        Event.isBootstrap
      = [.dqlite_bootstrap servers.length (some (servers.map toNative)) rc] ∧
    (Cluster 0 (some (servers.map toNative)) servers.length st2).2
      = .ret (servers.map (fun s => { ID := s.ID % 2 ^ 32, Address := s.Address }), none) ∧
    ((∀ s ∈ servers, s.ID < 2 ^ 32) →
      (Cluster 0 (some (servers.map toNative)) servers.length st2).2 = .ret (servers, none)) := by
  obtain ⟨evs, he, hB⟩ := Bootstrap_ok_eq DQLITE_CANTBOOTSTRAP rc st servers hlen
  have hfil : List.filter Event.isBootstrap evs = [] := by
    rw [List.filter_eq_nil_iff]
    intro x hx
    simp [he x hx]
  have hcl := Cluster_roundtrip servers st2 hlen hnul
  refine ⟨?_, hcl, ?_⟩
  · rw [hB]
    simp only [List.append_assoc, List.drop_left, List.filter_append, hfil]
    simp [Event.isBootstrap]
  · intro hid
    rw [hcl]
    congr 2
    conv_rhs => rw [← List.map_id servers]
    apply List.map_congr_left
    intro s hs
    have hmod : s.ID % 2 ^ 32 = s.ID := Nat.mod_eq_of_lt (hid s hs)
    show ({ ID := s.ID % 2 ^ 32, Address := s.Address } : ServerInfo) = id s
    rw [hmod]
    rfl

theorem serverInfo_roundtrip_witness :
    ((Bootstrap 10 false 0 sampleState sampleMembers).1.trace.drop
        sampleState.trace.length).filter Event.isBootstrap
      = [.dqlite_bootstrap 2 (some (sampleMembers.map toNative)) 0] ∧
    (Cluster 0 (some (sampleMembers.map toNative)) 2 sampleState).2
      = .ret (sampleMembers, none) :=
  ⟨(serverInfo_roundtrip 10 0 sampleState sampleState sampleMembers (by decide)
      (by decide)).1,
    (serverInfo_roundtrip 10 0 sampleState sampleState sampleMembers (by decide)
      (by decide)).2.2 (by decide)⟩

/-- C6 (counterexample): `Bootstrap` of the single member `{2 ^ 32 + 1, "a"}`
hands the native engine an entry with id 1, and `Cluster` on that array returns
`{1, "a"}`, which is not the member given. -/
theorem serverInfo_id_not_verbatim :
    (0 : Byte) ∉ wideMember.Address ∧
    ((Bootstrap 10 false 0 sampleState [wideMember]).1.trace.drop
        sampleState.trace.length).filter Event.isBootstrap
      = [.dqlite_bootstrap 1 (some [{ id := 1, address := [97, 0] }]) 0] ∧
    (Cluster 0 (some [{ id := 1, address := [97, 0] }]) 1 sampleState).2
      = .ret ([{ ID := 1, Address := [97] }], none) ∧
    ([{ ID := 1, Address := [97] }] : List ServerInfo) ≠ [wideMember] := by
  decide

/-- C10 (the code at the failing input): `malloc` returns NULL for one entry;
`allocServers` tests its out-parameter, not the allocation, and returns 0 with
a NULL array; `Server.Bootstrap` of `{1, "a"}` then goes on to `setServer`,
which stores through the NULL pointer, and never returns the out-of-memory
error. -/
theorem allocServers_null_not_detected :
    (allocServers true sampleState 1 false).2 = .ret (0, none) ∧
    (Bootstrap 10 true 0 sampleState [{ ID := 1, Address := [97] }]).2 = .fault ∧
    (Bootstrap 10 true 0 sampleState [{ ID := 1, Address := [97] }]).1.trace
      = [.malloc 1 true, .setServer 0 1 [97, 0]] ∧
    (Bootstrap 10 true 0 sampleState [{ ID := 1, Address := [97] }]).2
      ≠ .ret (some (.Errorf "out of memory")) := by
  decide

end Bindings
